import Mathlib

/-!
Shallow embedding of the btl-backend oracle (`src/server.js`): the GoPlus
scoring function, the bounded in-memory scan store, the on-demand audit
event handler, and the block-sweep tick, with theorems settling the spec
claims about them.
-/

set_option autoImplicit false

namespace BTL

/-! ## GoPlus collaborator response (§6 of the spec, fields read at
`server.js` lines 71-77).  Boolean flags arrive as strings ("0"/"1");
tax fields are decimal-fraction strings that may be absent
(`result.buy_tax || 0`), so they are modelled as `Option String`. -/

structure GoPlusResult where
  is_honeypot : String
  is_open_source : String
  is_proxy : String
  is_mintable : String
  can_take_back_ownership : String
  buy_tax : Option String
  sell_tax : Option String
  deriving DecidableEq, Repr

/-! ## JavaScript `parseFloat` model.

`parseFloat` reads an optional sign, then decimal digits, an optional dot
and further digits, ignoring any trailing garbage; it returns `NaN` when no
digit was consumed.  `none` stands for `NaN`; any comparison against `NaN`
is `false` in JS, which `taxExceeds` reproduces below. -/

def parseDigits : List Char → ℕ → ℕ → ℕ × ℕ × List Char
  | [], acc, n => (acc, n, [])
  | c :: cs, acc, n =>
      if c.isDigit then parseDigits cs (10 * acc + (c.toNat - 48)) (n + 1)
      else (acc, n, c :: cs)

def parseJSFloat (s : String) : Option ℚ :=
  let cs := s.data
  let signAndRest : ℚ × List Char :=
    match cs with
    | '-' :: rest => (-1, rest)
    | '+' :: rest => (1, rest)
    | _ => (1, cs)
  let (ip, ni, cs2) := parseDigits signAndRest.2 0 0
  let fracPart : ℕ × ℕ × List Char :=
    match cs2 with
    | '.' :: rest => parseDigits rest 0 0
    | _ => (0, 0, [])
  let (fp, nf, _) := fracPart
  if ni + nf = 0 then none
  else some (signAndRest.1 * ((ip : ℚ) + (fp : ℚ) / (10 : ℚ) ^ nf))

/-- `parseFloat(result.buy_tax || 0)`: an absent or empty-string tax field is
falsy, so `0` is parsed instead; otherwise the string itself is parsed. -/
def taxValue (t : Option String) : Option ℚ :=
  match t with
  | none => some 0
  | some s => if s = "" then some 0 else parseJSFloat s

/-- `parseFloat(result.buy_tax || 0) > 0.1` (server.js lines 76-77); a `NaN`
comparison is `false`. -/
def taxExceeds (t : Option String) : Bool :=
  match taxValue t with
  | none => false
  | some q => q > 1 / 10

/-! ## Scoring (server.js lines 69-79). -/

def computeScore (r : GoPlusResult) : ℤ :=
  let s : ℤ := 100
  let s := if r.is_honeypot = "1" then s - 100 else s
  let s := if r.is_open_source = "0" then s - 20 else s
  let s := if r.is_proxy = "1" then s - 10 else s
  let s := if r.is_mintable = "1" then s - 15 else s
  let s := if r.can_take_back_ownership = "1" then s - 20 else s
  let s := if taxExceeds r.buy_tax then s - 15 else s
  let s := if taxExceeds r.sell_tax then s - 15 else s
  max 0 (min 100 s)

/-- The normalized outcome `scanWithGoPlus` returns (server.js lines 81-87). -/
structure ScanOutcome where
  score : ℤ
  isHoneypot : Bool
  isMintable : Bool
  ownerCanWithdraw : Bool
  deriving DecidableEq, Repr

/-- `scanWithGoPlus`, as a function of what the external call yields for the
address: `none` models a transport failure, timeout, or a response with no
entry for the address — each of those paths returns `null` in the source. -/
def scanWithGoPlus (resp : Option GoPlusResult) : Option ScanOutcome :=
  match resp with
  | none => none
  | some r =>
      some { score := computeScore r
             isHoneypot := r.is_honeypot = "1"
             isMintable := r.is_mintable = "1"
             ownerCanWithdraw := r.can_take_back_ownership = "1" }

/-! ## Bounded in-memory store (server.js lines 20-32). -/

structure ScanRecord where
  contract_address : String
  score : ℤ
  is_honeypot : Bool
  is_mintable : Bool
  owner_can_withdraw : Bool
  has_sbt : Bool
  scanned_at : String := ""
  block_number : Option ℤ := none
  deployer : Option String := none
  deriving DecidableEq, Repr

/-- `addScan`: push, then `shift()` once if the length exceeds 1000. -/
def addScan (scans : List ScanRecord) (d : ScanRecord) : List ScanRecord :=
  let s := scans ++ [d]
  if s.length > 1000 then s.tail else s

/-- `String.toLowerCase` on the ASCII addresses the system handles. -/
def jsToLower (s : String) : String :=
  String.mk (s.data.map Char.toLower)

/-- `getScan`: `scans.find(...)` scans from index 0, i.e. oldest first. -/
def getScan (scans : List ScanRecord) (address : String) : Option ScanRecord :=
  scans.find? fun s => jsToLower s.contract_address == jsToLower address

/-- `getRecent`: `scans.slice(-limit).reverse()`.  JavaScript `slice(-0)` is
`slice(0)`, so `limit = 0` copies the whole array; for positive `limit` the
slice keeps the last `min limit length` elements. -/
def getRecent (scans : List ScanRecord) (limit : ℕ) : List ScanRecord :=
  (scans.drop (if limit = 0 then 0 else scans.length - limit)).reverse

/-! ## FLOW A: the `AuditRequested` handler (server.js lines 96-148).

External effects are supplied as an environment: what the GoPlus call
yields, and what happens to the submitted transaction.  The observable
output of the handler is the list of `fulfillAudit` submissions it
attempted and the resulting store. -/

/-- Arguments of one `contract.fulfillAudit` submission. -/
structure ChainTx where
  requestId : ℕ
  score : ℤ
  isHoneypot : Bool
  isMintable : Bool
  ownerCanWithdraw : Bool
  deriving DecidableEq, Repr

/-- Fate of a submitted transaction: the submission or `tx.wait()` throws,
or a receipt arrives with the given `status`. -/
inductive TxOutcome where
  | throws
  | mined (status : ℕ)
  deriving DecidableEq, Repr

structure AuditEnv where
  goPlusResp : Option GoPlusResult
  txOutcome : TxOutcome
  now : String
  deriving DecidableEq, Repr

structure AuditEffects where
  txAttempts : List ChainTx
  store : List ScanRecord
  deriving DecidableEq, Repr

/-- The `AuditRequested` handler body.  `scanResult` is declared `const` in
the source (line 103), so when `scanWithGoPlus` returns `null` the fallback
reassignment `scanResult = ...` to the neutral record (line 107) throws a
`TypeError`, which the `catch` of the handler (line 145) swallows: no
`fulfillAudit` transaction is submitted and the store is untouched. -/
def onAuditRequested (env : AuditEnv) (requestId : ℕ) (target : String)
    (store : List ScanRecord) : AuditEffects :=
  match scanWithGoPlus env.goPlusResp with
  | none =>
      { txAttempts := [], store := store }
  | some sr =>
      let tx : ChainTx :=
        { requestId := requestId, score := sr.score, isHoneypot := sr.isHoneypot
          isMintable := sr.isMintable, ownerCanWithdraw := sr.ownerCanWithdraw }
      match env.txOutcome with
      | .throws => { txAttempts := [tx], store := store }
      | .mined status =>
          if status = 1 then
            { txAttempts := [tx]
              store := addScan store
                { contract_address := target, score := sr.score
                  is_honeypot := sr.isHoneypot, is_mintable := sr.isMintable
                  owner_can_withdraw := sr.ownerCanWithdraw
                  has_sbt := true, scanned_at := env.now } }
          else
            { txAttempts := [tx], store := store }

/-! ## FLOW B: the block sweep (server.js lines 152-180).

`scanBlock` wraps its whole body in `try { .. } catch { /- silent -/ }`, so
it never throws into `scanNewBlocks`; the only failure that can reach the
tick body is `provider.getBlockNumber()` throwing, modelled by
`HeadRead.err`.  Block numbers are integers (`currentBlock - 1` may reach
`-1` when the head is `0`), so the watermark is modelled as `ℤ`. -/

structure SweepState where
  lastProcessedBlock : ℤ
  isScanning : Bool
  deriving DecidableEq, Repr

inductive HeadRead where
  | ok (h : ℤ)
  | err
  deriving DecidableEq, Repr

/-- The ascending block range `[a, b]` iterated by the `for` loop. -/
def blockRange (a b : ℤ) : List ℤ :=
  if a > b then []
  else (List.range (b - a + 1).toNat).map fun (i : ℕ) => a + (i : ℤ)

structure TickResult where
  state : SweepState
  scanned : List ℤ
  deriving DecidableEq, Repr

/-- One invocation of `scanNewBlocks`, run to completion, given the outcome
of the head read.  If `isScanning` is set (another tick holds the flag) it
returns at once; otherwise the flag is taken and — per the `finally` — is
clear again when the tick ends, whether or not the head read threw. -/
def scanNewBlocks (s : SweepState) (head : HeadRead) : TickResult :=
  if s.isScanning then { state := s, scanned := [] }
  else
    match head with
    | .err => { state := { s with isScanning := false }, scanned := [] }
    | .ok h =>
        let w := if s.lastProcessedBlock = 0 then h - 1 else s.lastProcessedBlock
        if h > w then
          { state := { lastProcessedBlock := h, isScanning := false }
            scanned := blockRange (w + 1) h }
        else
          { state := { lastProcessedBlock := w, isScanning := false }
            scanned := [] }

/-- A sequence of completed ticks, one per head read, collecting all scanned
blocks. -/
def runTicks (s : SweepState) : List HeadRead → SweepState × List ℤ
  | [] => (s, [])
  | head :: rest =>
      let t := scanNewBlocks s head
      let r := runTicks t.state rest
      (r.1, t.scanned ++ r.2)

/-! ## Spec-side scoring formula (spec §4.1), for comparison with
`computeScore`. -/

structure SpecFlags where
  honeypot : Bool
  open_source : Bool
  proxy : Bool
  mintable : Bool
  take_back_ownership : Bool
  buy_tax_high : Bool
  sell_tax_high : Bool
  deriving DecidableEq, Repr

/-- Modelled from the spec wording: start at 100, additive penalties,
then clamp into [0, 100]. -/
def specScore (f : SpecFlags) : ℤ :=
  max 0 (min 100 (100 -
    ((if f.honeypot then 100 else 0) +
     (if f.open_source then 0 else 20) +
     (if f.proxy then 10 else 0) +
     (if f.mintable then 15 else 0) +
     (if f.take_back_ownership then 20 else 0) +
     (if f.buy_tax_high then 15 else 0) +
     (if f.sell_tax_high then 15 else 0))))

/-- How the spec conditions read off a collaborator response. -/
def specFlagsOf (r : GoPlusResult) : SpecFlags :=
  { honeypot := r.is_honeypot == "1"
    open_source := !(r.is_open_source == "0")
    proxy := r.is_proxy == "1"
    mintable := r.is_mintable == "1"
    take_back_ownership := r.can_take_back_ownership == "1"
    buy_tax_high := taxExceeds r.buy_tax
    sell_tax_high := taxExceeds r.sell_tax }

/-! ## Shared facts about the tax comparison. -/

lemma taxExceeds_some_zero : taxExceeds (some "0") = false := by
  simp [taxExceeds, taxValue, parseJSFloat, parseDigits, Char.isDigit]

lemma taxExceeds_eq_false_of (t : Option String)
    (h : t = none ∨ t = some "" ∨ ∃ s, t = some s ∧ parseJSFloat s = none) :
    taxExceeds t = false := by
  rcases h with h | h | ⟨s, hs, hp⟩
  · subst h; simp [taxExceeds, taxValue]
  · subst h; simp [taxExceeds, taxValue]
  · subst hs
    by_cases hse : s = ""
    · subst hse; simp [taxExceeds, taxValue]
    · simp [taxExceeds, taxValue, hse, hp]

set_option maxHeartbeats 1000000 in
/-- Claim C2: `scanWithGoPlus` scores exactly by the spec formula (start at
100; subtract 100 for honeypot, 20 for closed source, 10 for proxy, 15 for
mintable, 20 for reclaimable ownership, 15 for each tax above 0.1; clamp
into [0, 100]); on the concrete collaborator response with
`is_open_source = "0"`, `is_mintable = "1"` and `buy_tax = "0.15"` the
score is 50. -/
theorem computeScore_matches_spec_formula :
    (∀ r : GoPlusResult, computeScore r = specScore (specFlagsOf r)) ∧
    computeScore { is_honeypot := "0", is_open_source := "0", is_proxy := "0",
                   is_mintable := "1", can_take_back_ownership := "0",
                   buy_tax := some "0.15", sell_tax := some "0" } = 50 := by
  constructor
  · intro r
    by_cases h1 : r.is_honeypot = "1" <;>
    by_cases h2 : r.is_open_source = "0" <;>
    by_cases h3 : r.is_proxy = "1" <;>
    by_cases h4 : r.is_mintable = "1" <;>
    by_cases h5 : r.can_take_back_ownership = "1" <;>
    by_cases h6 : taxExceeds r.buy_tax = true <;>
    by_cases h7 : taxExceeds r.sell_tax = true <;>
    simp only [computeScore, specScore, specFlagsOf, h1, h2, h3, h4, h5, h6, h7,
      beq_iff_eq, if_true, if_false, Bool.not_true, Bool.not_false,
      beq_self_eq_true, Bool.not_eq_true] <;>
    norm_num [h1, h2, h3, h4, h5, h6, h7]
  · simp [computeScore, taxExceeds, taxValue, parseJSFloat, parseDigits,
      Char.isDigit]
    norm_num

/-- Claim C6: a response flagged `is_honeypot = "1"` always scores 0,
whatever the other flags and tax fields are. -/
theorem honeypot_forces_score_zero (r : GoPlusResult)
    (h : r.is_honeypot = "1") : computeScore r = 0 := by
  simp only [computeScore, h]
  split_ifs <;> omega

theorem honeypot_forces_score_zero_witness :
    computeScore { is_honeypot := "1", is_open_source := "1", is_proxy := "0",
                   is_mintable := "0", can_take_back_ownership := "0",
                   buy_tax := none, sell_tax := none } = 0 :=
  honeypot_forces_score_zero _ rfl

/-- Claim C10: a missing, empty, or non-numeric (NaN-parsing) tax field
never triggers the 15-point tax penalty — the score equals the score with
that tax field set to the string "0". -/
theorem absent_or_nan_tax_no_penalty (r : GoPlusResult) :
    ((r.buy_tax = none ∨ r.buy_tax = some "" ∨
        ∃ s, r.buy_tax = some s ∧ parseJSFloat s = none) →
      computeScore r = computeScore { r with buy_tax := some "0" }) ∧
    ((r.sell_tax = none ∨ r.sell_tax = some "" ∨
        ∃ s, r.sell_tax = some s ∧ parseJSFloat s = none) →
      computeScore r = computeScore { r with sell_tax := some "0" }) := by
  constructor <;> intro h <;>
    simp [computeScore, taxExceeds_eq_false_of _ h, taxExceeds_some_zero]

theorem absent_or_nan_tax_no_penalty_witness :
    (computeScore { is_honeypot := "0", is_open_source := "1", is_proxy := "0",
                    is_mintable := "0", can_take_back_ownership := "0",
                    buy_tax := none, sell_tax := some "abc" } =
      computeScore { is_honeypot := "0", is_open_source := "1", is_proxy := "0",
                     is_mintable := "0", can_take_back_ownership := "0",
                     buy_tax := some "0", sell_tax := some "abc" }) ∧
    (computeScore { is_honeypot := "0", is_open_source := "1", is_proxy := "0",
                    is_mintable := "0", can_take_back_ownership := "0",
                    buy_tax := none, sell_tax := some "abc" } =
      computeScore { is_honeypot := "0", is_open_source := "1", is_proxy := "0",
                     is_mintable := "0", can_take_back_ownership := "0",
                     buy_tax := none, sell_tax := some "0" }) :=
  ⟨(absent_or_nan_tax_no_penalty _).1 (Or.inl rfl),
   (absent_or_nan_tax_no_penalty _).2 (Or.inr (Or.inr ⟨"abc", rfl,
     by simp [parseJSFloat, parseDigits, Char.isDigit]⟩))⟩

/-! ## Sample records used by concrete instances. -/

def recSample : ScanRecord :=
  { contract_address := "0xAbC", score := 80, is_honeypot := false,
    is_mintable := false, owner_can_withdraw := false, has_sbt := true }

def recB : ScanRecord :=
  { recSample with contract_address := "0xABC", score := 40 }

def recOther : ScanRecord :=
  { recSample with contract_address := "0xFF", score := 10 }

/-! ## Store theorems. -/

lemma foldl_addScan_eq_drop (ds : List ScanRecord) :
    ∀ s : List ScanRecord, s.length ≤ 1000 →
      List.foldl addScan s ds = (s ++ ds).drop (s.length + ds.length - 1000) := by
  induction ds with
  | nil =>
      intro s hs
      simp [Nat.sub_eq_zero_of_le hs]
  | cons d ds ih =>
      intro s hs
      rw [List.foldl_cons]
      by_cases hlen : s.length = 1000
      · have hc : (s ++ [d]).length > 1000 := by
          simp only [List.length_append, List.length_singleton, hlen]; omega
        have h1 : addScan s d = (s ++ [d]).drop 1 := by
          simp only [addScan]
          rw [if_pos hc, List.drop_one]
        have h3 : ((s ++ [d]).drop 1).length = 1000 := by
          simp only [List.length_drop, List.length_append,
            List.length_singleton, hlen]
        have h2 : (addScan s d).length ≤ 1000 := by rw [h1, h3]
        rw [ih _ h2, h1, h3]
        have h4 : 1000 + ds.length - 1000 = ds.length := by omega
        rw [h4]
        have h5 : (1 : ℕ) ≤ (s ++ [d]).length := by
          simp only [List.length_append, List.length_singleton]; omega
        rw [← List.drop_append_of_le_length h5, List.drop_drop]
        have hidx : s.length + (d :: ds).length - 1000 = 1 + ds.length := by
          simp only [List.length_cons, hlen]; omega
        have hl : (s ++ [d]) ++ ds = s ++ d :: ds := by simp
        rw [hidx, hl]
      · have hlt : s.length < 1000 := lt_of_le_of_ne hs hlen
        have h1 : addScan s d = s ++ [d] := by
          simp only [addScan]
          rw [if_neg (by
            simp only [List.length_append, List.length_singleton]; omega)]
        have h2 : (s ++ [d]).length ≤ 1000 := by
          simp only [List.length_append, List.length_singleton]; omega
        rw [h1, ih _ h2]
        have hidx : (s ++ [d]).length + ds.length - 1000 =
            s.length + (d :: ds).length - 1000 := by
          simp only [List.length_append, List.length_singleton,
            List.length_cons, List.length_nil]
          omega
        have hl : (s ++ [d]) ++ ds = s ++ d :: ds := by simp
        rw [hidx, hl]

/-- Claim C3: starting from the empty store, any sequence of `addScan`
operations keeps the size at or below the capacity 1000, and after
1000 + k appends (k at most 1000) the store holds exactly the k most recent
entries preceded by the last 1000 − k of the earlier ones, in insertion
order (oldest-first eviction). -/
theorem store_capacity_and_oldest_first_eviction :
    (∀ ds : List ScanRecord, (List.foldl addScan [] ds).length ≤ 1000) ∧
    (∀ earlier recent : List ScanRecord,
        earlier.length = 1000 → recent.length ≤ 1000 →
        (List.foldl addScan [] (earlier ++ recent)).length = 1000 ∧
        List.foldl addScan [] (earlier ++ recent) =
          earlier.drop recent.length ++ recent) := by
  have key : ∀ ds : List ScanRecord,
      List.foldl addScan [] ds = ds.drop (ds.length - 1000) := by
    intro ds
    simpa using foldl_addScan_eq_drop ds [] (by simp)
  constructor
  · intro ds
    rw [key]
    simp only [List.length_drop]
    omega
  · intro earlier recent he hr
    have hlen : (earlier ++ recent).length = 1000 + recent.length := by
      simp only [List.length_append, he]
    constructor
    · rw [key, hlen]
      simp only [List.length_drop, List.length_append, he]
      omega
    · rw [key, hlen]
      have h4 : 1000 + recent.length - 1000 = recent.length := by omega
      rw [h4]
      exact List.drop_append_of_le_length (by omega)

theorem store_capacity_and_oldest_first_eviction_witness :
    (List.foldl addScan [] (List.replicate 1000 recSample ++ [recB])).length
        = 1000 ∧
    List.foldl addScan [] (List.replicate 1000 recSample ++ [recB]) =
      (List.replicate 1000 recSample).drop 1 ++ [recB] := by
  have h := store_capacity_and_oldest_first_eviction.2
    (List.replicate 1000 recSample) [recB] (by rw [List.length_replicate])
    (by simp only [List.length_cons, List.length_nil]; omega)
  exact ⟨h.1, h.2⟩

/-- Claim C7: `getScan` matches `contract_address` case-insensitively and
returns the earliest-inserted match (first match scanning oldest to
newest), or `none` when no entry matches; on a store holding A (score 80)
then B (score 40) for the same address it returns A. -/
theorem getScan_returns_earliest_match :
    (∀ (pre post : List ScanRecord) (x : ScanRecord) (addr : String),
        (∀ y ∈ pre, jsToLower y.contract_address ≠ jsToLower addr) →
        jsToLower x.contract_address = jsToLower addr →
        getScan (pre ++ x :: post) addr = some x) ∧
    (∀ (scans : List ScanRecord) (addr : String),
        getScan scans addr = none ↔
          ∀ y ∈ scans, jsToLower y.contract_address ≠ jsToLower addr) ∧
    getScan [recSample, recB] "0xabc" = some recSample := by
  refine ⟨?_, ?_, ?_⟩
  · intro pre post x addr hpre hx
    induction pre with
    | nil =>
        simpa [getScan] using
          List.find?_cons_of_pos
            (p := fun s => jsToLower s.contract_address == jsToLower addr)
            post (by exact beq_iff_eq.mpr hx)
    | cons y ys ih =>
        have hy : ¬(jsToLower y.contract_address == jsToLower addr) = true := by
          simpa using hpre y (by simp)
        have hrest : ∀ z ∈ ys, jsToLower z.contract_address ≠ jsToLower addr :=
          fun z hz => hpre z (by simp [hz])
        have step := List.find?_cons_of_neg
          (p := fun s => jsToLower s.contract_address == jsToLower addr)
          (ys ++ x :: post) hy
        simp only [getScan, List.cons_append]
        rw [step]
        simpa [getScan] using ih hrest
  · intro scans addr
    simp [getScan, List.find?_eq_none]
  · simp [getScan, recSample, recB, jsToLower]

theorem getScan_returns_earliest_match_witness :
    getScan ([recOther] ++ recSample :: [recB]) "0xabc" = some recSample ∧
    (getScan [] "0xabc" = none ↔
      ∀ y ∈ ([] : List ScanRecord),
        jsToLower y.contract_address ≠ jsToLower "0xabc") :=
  ⟨getScan_returns_earliest_match.1 [recOther] [recB] recSample "0xabc"
      (by simp [recOther, recSample, jsToLower])
      (by simp [recSample, jsToLower]),
   getScan_returns_earliest_match.2.1 [] "0xabc"⟩

/-- Claim C9 counterexample: JavaScript `slice(-0)` is `slice(0)`, so
`getRecent 0` on a one-element store returns that element and its length 1
exceeds min(0, size) = 0, refuting the claim for limit 0. -/
theorem getRecent_zero_limit_exceeds_min :
    ¬ ((getRecent [recSample] 0).length ≤
        min 0 ([recSample] : List ScanRecord).length) := by
  decide

/-- Claim C9 amended: for every positive limit, `getRecent limit` has
length exactly min(limit, store size) (so at most that), and is ordered
most recent first — its i-th element is the i-th element from the end of
the store. -/
theorem getRecent_length_and_order (scans : List ScanRecord) (limit : ℕ)
    (hl : 1 ≤ limit) :
    (getRecent scans limit).length = min limit scans.length ∧
    ∀ i, i < (getRecent scans limit).length →
      (getRecent scans limit)[i]? = scans[scans.length - 1 - i]? := by
  have hne : limit ≠ 0 := by omega
  constructor
  · simp [getRecent, hne]
    omega
  · intro i hi
    have hk : i < (scans.drop (scans.length - limit)).length := by
      simpa [getRecent, hne] using hi
    calc (getRecent scans limit)[i]?
        = (scans.drop (scans.length - limit)).reverse[i]? := by
          simp [getRecent, hne]
      _ = (scans.drop (scans.length - limit))[
            (scans.drop (scans.length - limit)).length - 1 - i]? :=
          List.getElem?_reverse hk
      _ = scans[(scans.length - limit) +
            ((scans.drop (scans.length - limit)).length - 1 - i)]? :=
          List.getElem?_drop ..
      _ = scans[scans.length - 1 - i]? := by
          congr 1
          simp only [List.length_drop] at hk ⊢
          omega

theorem getRecent_length_and_order_witness :
    (getRecent [recSample, recB] 1).length =
        min 1 ([recSample, recB] : List ScanRecord).length ∧
    (getRecent [recSample, recB] 1)[0]? =
      [recSample, recB][([recSample, recB] : List ScanRecord).length - 1 - 0]? :=
  ⟨(getRecent_length_and_order [recSample, recB] 1 (by omega)).1,
   (getRecent_length_and_order [recSample, recB] 1 (by omega)).2 0 (by decide)⟩

/-! ## Sweep theorems. -/

/-- A head read is well formed when a returned block height is
non-negative. -/
def headOkB : HeadRead → Bool
  | .ok h => decide (0 ≤ h)
  | .err => true

lemma blockRange_single (h : ℤ) : blockRange h h = [h] := by
  rw [blockRange, if_neg (lt_irrefl h)]
  have h1 : (h - h + 1).toNat = 1 := by omega
  have h2 : List.range 1 = [0] := rfl
  rw [h1, h2, List.map_cons, List.map_nil]
  simp

lemma tick_watermark_mono (s : SweepState) (head : HeadRead)
    (hh : headOkB head = true) :
    s.lastProcessedBlock ≤ ((scanNewBlocks s head).state).lastProcessedBlock := by
  cases head with
  | err =>
      cases hsc : s.isScanning <;> simp [scanNewBlocks, hsc]
  | ok h =>
      have h0 : (0 : ℤ) ≤ h := of_decide_eq_true hh
      cases hsc : s.isScanning with
      | true => simp [scanNewBlocks, hsc]
      | false =>
          by_cases hz : s.lastProcessedBlock = 0
          · simp only [scanNewBlocks, hsc, hz]
            split_ifs <;> simp <;> omega
          · simp only [scanNewBlocks, hsc, hz]
            split_ifs <;> simp <;> omega

lemma runTicks_watermark_mono (heads : List HeadRead) :
    ∀ s : SweepState, heads.all headOkB = true →
      s.lastProcessedBlock ≤ (runTicks s heads).1.lastProcessedBlock := by
  induction heads with
  | nil => intro s _; simp [runTicks]
  | cons head rest ih =>
      intro s hall
      simp only [List.all_cons, Bool.and_eq_true] at hall
      have h1 := tick_watermark_mono s head hall.1
      have h2 := ih (scanNewBlocks s head).state hall.2
      calc s.lastProcessedBlock
          ≤ ((scanNewBlocks s head).state).lastProcessedBlock := h1
        _ ≤ (runTicks (scanNewBlocks s head).state rest).1.lastProcessedBlock :=
            h2
        _ = (runTicks s (head :: rest)).1.lastProcessedBlock := rfl

/-- Claim C4 counterexample: after a first tick at head 100, a second tick
that runs (not skipped) and reads head 90 ends with watermark 100, not 90 —
so a successful tick does not always end with the watermark equal to the
head it read. -/
theorem successful_tick_watermark_head_mismatch :
    (scanNewBlocks ⟨0, false⟩ (.ok 100)).state = ⟨100, false⟩ ∧
    ((scanNewBlocks ⟨100, false⟩ (.ok 90)).state).lastProcessedBlock ≠ 90 := by
  decide

/-- Claim C4 amended: over any tick sequence with non-negative head reads
the watermark never decreases; a tick entered with the watermark
uninitialized (0) sets it to H − 1 and scans exactly block H, ending at H;
and a tick entered with an initialized watermark ends with the watermark
at max(previous watermark, H) — hence equal to H exactly when the head has
not regressed below the watermark. -/
theorem watermark_monotone_and_successful_tick :
    (∀ (s : SweepState) (heads : List HeadRead), heads.all headOkB = true →
        s.lastProcessedBlock ≤ (runTicks s heads).1.lastProcessedBlock) ∧
    (∀ (s : SweepState) (h : ℤ), s.isScanning = false →
        s.lastProcessedBlock = 0 →
        scanNewBlocks s (.ok h) = ⟨⟨h, false⟩, [h]⟩) ∧
    (∀ (s : SweepState) (h : ℤ), s.isScanning = false →
        s.lastProcessedBlock ≠ 0 →
        ((scanNewBlocks s (.ok h)).state).lastProcessedBlock =
          max s.lastProcessedBlock h) := by
  refine ⟨fun s heads hall => runTicks_watermark_mono heads s hall, ?_, ?_⟩
  · intro s h hsc hz
    simp only [scanNewBlocks, hsc, hz, Bool.false_eq_true, if_false, if_true]
    rw [if_pos (by omega : h > h - 1)]
    have h1 : h - 1 + 1 = h := by omega
    rw [h1, blockRange_single]
  · intro s h hsc hz
    simp only [scanNewBlocks, hsc, hz, Bool.false_eq_true, if_false, if_true]
    split_ifs with hgt
    · simp [max_eq_right (le_of_lt hgt)]
    · simp [max_eq_left (by omega : h ≤ s.lastProcessedBlock)]

theorem watermark_monotone_and_successful_tick_witness :
    (⟨0, false⟩ : SweepState).lastProcessedBlock ≤
        (runTicks ⟨0, false⟩ [.ok 100, .ok 103]).1.lastProcessedBlock ∧
    scanNewBlocks ⟨0, false⟩ (.ok 103) = ⟨⟨103, false⟩, [103]⟩ ∧
    ((scanNewBlocks ⟨103, false⟩ (.ok 107)).state).lastProcessedBlock =
        max 103 107 :=
  ⟨watermark_monotone_and_successful_tick.1 ⟨0, false⟩ [.ok 100, .ok 103]
      (by decide),
   watermark_monotone_and_successful_tick.2.1 ⟨0, false⟩ 103 rfl rfl,
   watermark_monotone_and_successful_tick.2.2 ⟨103, false⟩ 107 rfl (by decide)⟩

/-- Claim C5: the sweep is single-flight — a tick entered while
`isScanning` is set changes nothing and scans no blocks — and any tick
that does run (including one whose head read throws) ends with
`isScanning` reset to false. -/
theorem sweep_single_flight :
    (∀ (s : SweepState) (head : HeadRead),
        s.isScanning = true → scanNewBlocks s head = ⟨s, []⟩) ∧
    (∀ (s : SweepState) (head : HeadRead),
        s.isScanning = false →
        ((scanNewBlocks s head).state).isScanning = false) := by
  constructor
  · intro s head h
    simp [scanNewBlocks, h]
  · intro s head h
    cases head with
    | err => simp [scanNewBlocks, h]
    | ok hd =>
        simp only [scanNewBlocks, h]
        rw [if_neg (by simp)]
        split_ifs <;> rfl

theorem sweep_single_flight_witness :
    scanNewBlocks ⟨5, true⟩ (.ok 9) = ⟨⟨5, true⟩, []⟩ ∧
    ((scanNewBlocks ⟨5, false⟩ .err).state).isScanning = false :=
  ⟨sweep_single_flight.1 ⟨5, true⟩ (.ok 9) rfl,
   sweep_single_flight.2 ⟨5, false⟩ .err rfl⟩

/-! ## On-demand handler theorems. -/

/-- Claim C1 (refuted by the code): when the scan comes back unavailable
(`scanWithGoPlus` yields `null`), the handler attempts no `fulfillAudit`
transaction at all and leaves the store untouched — the `const`
reassignment slip throws before the fallback values can be submitted —
instead of the claimed single chain-write attempt with score 50 and all
flags false. -/
theorem unavailable_scan_attempts_no_fulfill :
    ∀ (txo : TxOutcome) (now : String) (rid : ℕ) (target : String)
      (store : List ScanRecord),
      onAuditRequested ⟨none, txo, now⟩ rid target store =
        { txAttempts := [], store := store } := by
  intro txo now rid target store
  rfl

/-- Claim C8: when the scan succeeded and the submitted transaction is
included, a reverted receipt (status ≠ 1) leaves the store unchanged with
exactly the one transaction attempted and no retry, while a success
receipt (status = 1) appends exactly one `ScanRecord` with
`has_sbt = true`. -/
theorem reverted_tx_one_attempt_no_append :
    ∀ (env : AuditEnv) (rid : ℕ) (target : String) (store : List ScanRecord)
      (sr : ScanOutcome) (st : ℕ),
      scanWithGoPlus env.goPlusResp = some sr → env.txOutcome = .mined st →
      ((st ≠ 1 → onAuditRequested env rid target store =
          { txAttempts := [{ requestId := rid, score := sr.score,
                             isHoneypot := sr.isHoneypot,
                             isMintable := sr.isMintable,
                             ownerCanWithdraw := sr.ownerCanWithdraw }]
            store := store }) ∧
       (st = 1 → onAuditRequested env rid target store =
          { txAttempts := [{ requestId := rid, score := sr.score,
                             isHoneypot := sr.isHoneypot,
                             isMintable := sr.isMintable,
                             ownerCanWithdraw := sr.ownerCanWithdraw }]
            store := addScan store
              { contract_address := target, score := sr.score,
                is_honeypot := sr.isHoneypot, is_mintable := sr.isMintable,
                owner_can_withdraw := sr.ownerCanWithdraw,
                has_sbt := true, scanned_at := env.now } })) := by
  intro env rid target store sr st hscan htx
  constructor <;> intro hst <;> simp [onAuditRequested, hscan, htx, hst]

/-- A collaborator response with no risk flags set, used as a concrete
environment for the handler instances. -/
def cleanResult : GoPlusResult :=
  { is_honeypot := "0", is_open_source := "1", is_proxy := "0",
    is_mintable := "0", can_take_back_ownership := "0",
    buy_tax := none, sell_tax := none }

theorem reverted_tx_one_attempt_no_append_witness :
    onAuditRequested ⟨some cleanResult, .mined 0, "t"⟩ 3 "0xC" [recSample] =
      { txAttempts := [{ requestId := 3, score := 100, isHoneypot := false,
                         isMintable := false, ownerCanWithdraw := false }]
        store := [recSample] } ∧
    onAuditRequested ⟨some cleanResult, .mined 1, "t"⟩ 3 "0xC" [recSample] =
      { txAttempts := [{ requestId := 3, score := 100, isHoneypot := false,
                         isMintable := false, ownerCanWithdraw := false }]
        store := addScan [recSample]
          { contract_address := "0xC", score := 100, is_honeypot := false,
            is_mintable := false, owner_can_withdraw := false,
            has_sbt := true, scanned_at := "t" } } := by
  have hscan : scanWithGoPlus (some cleanResult) =
      some { score := 100, isHoneypot := false, isMintable := false,
             ownerCanWithdraw := false } := by
    simp [scanWithGoPlus, computeScore, cleanResult, taxExceeds, taxValue]
    norm_num
  exact ⟨(reverted_tx_one_attempt_no_append ⟨some cleanResult, .mined 0, "t"⟩
            3 "0xC" [recSample]
            { score := 100, isHoneypot := false, isMintable := false,
              ownerCanWithdraw := false } 0 hscan rfl).1 (by omega),
         (reverted_tx_one_attempt_no_append ⟨some cleanResult, .mined 1, "t"⟩
            3 "0xC" [recSample]
            { score := 100, isHoneypot := false, isMintable := false,
              ownerCanWithdraw := false } 1 hscan rfl).2 rfl⟩

end BTL
